import Mathlib

/-!
Verification of the swicc/uicc UICC (SIM-card) emulator core against its
natural-language specification.

The development shallowly embeds the relevant C sources:
  * `src/src/fs/disk.c`      — disk store, file walk, lookup tables;
  * `src/include/uicc/common.h` (second unit) — VA selection state machine;
  * `src/src/apduh.c`        — APDU handlers (SELECT, READ BINARY,
                               READ RECORD, GET RESPONSE).

Bytes are modelled as `Nat` values `< 256`; byte buffers as `List Nat`.
Machine-integer truncation is made explicit (`% 2 ^ w`) where the source
casts.  Every definition follows the corresponding C function; definitions
for code of the repository that is not part of the provided sources (file
header parse helpers and a few constants) carry a doc comment starting with
`Modelled from the spec:` and follow the specification text.
-/

namespace Swicc

/-- Whether `n ≤ l.length` holds, computed structurally without materialising the length
(the C code compares offsets against the stored `len` of a buffer; see
`lenAtLeast_iff`). -/
def lenAtLeast : List Nat → Nat → Bool
  | _, 0 => true
  | [], _ + 1 => false
  | _ :: l, n + 1 => lenAtLeast l n

/-- Read a little-endian 16-bit value from a byte buffer (out-of-range reads
give 0, mirroring only the in-bounds uses of the source). -/
def readU16LE (b : List Nat) (i : Nat) : Nat :=
  b.getD i 0 + 256 * b.getD (i + 1) 0

/-- Read a little-endian 32-bit value from a byte buffer. -/
def readU32LE (b : List Nat) (i : Nat) : Nat :=
  b.getD i 0 + 256 * b.getD (i + 1) 0 + 65536 * b.getD (i + 2) 0 +
    16777216 * b.getD (i + 3) 0

/-- Little-endian 16-bit byte encoding. -/
def u16le (n : Nat) : List Nat := [n % 256, n / 256 % 256]

/-- Little-endian 32-bit byte encoding. -/
def u32le (n : Nat) : List Nat :=
  [n % 256, n / 256 % 256, n / 65536 % 256, n / 16777216 % 256]

/-- Big-endian byte pair of a 16-bit value (`htobe16` in the source). -/
def be16 (n : Nat) : List Nat := [n / 256 % 256, n % 256]

/-- Wrap-around 32-bit subtraction (C `uint32_t` subtraction). -/
def sub32 (a b : Nat) : Nat := (a + 4294967296 - b % 4294967296) % 4294967296

/-- Wrap-around 16-bit subtraction (C `uint16_t` subtraction). -/
def sub16 (a b : Nat) : Nat := (a + 65536 - b % 65536) % 65536

/-- The enum `uicc_fs_item_type_et` from `include/uicc/fs/common.h`.  `rfu` stands for
any raw byte above the last enumerator (such a value compares unequal to
every named constant in the C switches). -/
inductive ItemType where
  | invalid
  | mf
  | adf
  | df
  | efTransparent
  | efLinearFixed
  | efCyclic
  | datoBertlv
  | hex
  | ascii
  | rfu
  deriving DecidableEq, Repr

/-- Decode the raw `type` byte of an item header into `ItemType`
(enumerator order of `uicc_fs_item_type_et`). -/
def decodeItemType (b : Nat) : ItemType :=
  match b with
  | 0 => .invalid
  | 1 => .mf
  | 2 => .adf
  | 3 => .df
  | 4 => .efTransparent
  | 5 => .efLinearFixed
  | 6 => .efCyclic
  | 7 => .datoBertlv
  | 8 => .hex
  | 9 => .ascii
  | _ => .rfu

/-- Folder item types (MF, ADF, DF). -/
def ItemType.isFolder (t : ItemType) : Bool :=
  t = .mf ∨ t = .adf ∨ t = .df

/-- EF item types (transparent, linear-fixed, cyclic). -/
def ItemType.isEf (t : ItemType) : Bool :=
  t = .efTransparent ∨ t = .efLinearFixed ∨ t = .efCyclic

/-- Parsed file view (`uicc_fs_file_st`): item header fields, file header
fields, the type-specific extras and the derived data window. -/
structure FsFile where
  size : Nat
  lcs : Nat
  type : ItemType
  offset_prel : Nat
  offset_trel : Nat
  id : Nat
  sid : Nat
  name : List Nat
  rid : List Nat
  pix : List Nat
  rcrd_size : Nat
  data_size : Nat
  data : List Nat
  deriving DecidableEq, Repr

/-- The all-zero file produced by `memset(&va, 0, ...)`: every numeric field
0 and `type` decoding to `invalid`. -/
def zeroFile : FsFile :=
  { size := 0, lcs := 0, type := .invalid, offset_prel := 0, offset_trel := 0,
    id := 0, sid := 0, name := List.replicate 17 0, rid := [], pix := [],
    rcrd_size := 0, data_size := 0, data := [] }

/-- Modelled from the spec: `sizeof(uicc_fs_file_raw_st)` — the raw struct is
not under `src/`; per spec §6 a file header is a 10-byte packed item header
(`size:u32 LE, lcs:u8, type:u8, offset_prel:u32 LE`) followed by
`id:u16 LE, sid:u8, name:[17]`, i.e. 30 bytes. -/
def fileRawSize : Nat := 30

/-- Modelled from the spec: the AID extension of an ADF header
(`rid[5] || pix[11]`, spec §3 and §6), 16 bytes. -/
def adfAidSize : Nat := 16

/-- Size of the type-specific raw header (spec §4.1: `data_size =
header.size - size_of_specific_header`): 30 bytes for plain files, +16 for
the ADF AID, +1 for the `rcrd_size` byte of record-oriented EFs. -/
def specificHdrSize (t : ItemType) : Nat :=
  match t with
  | .adf => fileRawSize + adfAidSize
  | .efLinearFixed => fileRawSize + 1
  | .efCyclic => fileRawSize + 1
  | _ => fileRawSize

/-- Modelled from the spec: `uicc_fs_file_prs` is declared but its body is
not under `src/`.  Per spec §4.1 (file-by-offset parse) and §6 (header
layout): read the bytes at the given tree-relative offset (the window `w`
below plays the role of the header `memcpy` source), decode the packed
headers, derive `data_size = size - size_of_specific_header` (u32
subtraction) and expose the following bytes as `data`.  Fails when the
buffer does not hold the complete specific header at the offset. -/
def filePrs (buf : List Nat) (offset : Nat) : Option FsFile :=
  let w := buf.drop offset
  if lenAtLeast w fileRawSize = false then none
  else
    let ty := decodeItemType (w.getD 5 0)
    if lenAtLeast w (specificHdrSize ty) = false then none
    else
      let size := readU32LE w 0
      let dsize := sub32 size (specificHdrSize ty)
      some
        { size := size
          lcs := w.getD 4 0
          type := ty
          offset_prel := readU32LE w 6
          offset_trel := offset
          id := readU16LE w 10
          sid := w.getD 12 0
          name := (w.drop 13).take 17
          rid := if ty = .adf then (w.drop 30).take 5 else []
          pix := if ty = .adf then (w.drop 35).take 11 else []
          rcrd_size :=
            if ty = .efLinearFixed ∨ ty = .efCyclic
            then w.getD 30 0 else 0
          data_size := dsize
          data := (w.drop (specificHdrSize ty)).take dsize }

/-- A lookup table (`uicc_disk_lut_st`): two parallel byte buffers of
`count_max` entries of widths `size_item1` / `size_item2`, with `count`
entries in use.  A `NULL` C buffer is modelled as `[]`. -/
structure LutSt where
  size_item1 : Nat
  size_item2 : Nat
  count : Nat
  count_max : Nat
  buf1 : List Nat
  buf2 : List Nat
  deriving DecidableEq, Repr

/-- The `memset`-zeroed LUT (`buf1 = buf2 = NULL`). -/
def emptyLut : LutSt :=
  { size_item1 := 0, size_item2 := 0, count := 0, count_max := 0,
    buf1 := [], buf2 := [] }

/-- A tree of the forest (`uicc_disk_tree_st`): its owned byte buffer and
its SID LUT.  `len` and `size` of the C struct both equal `buf.length`. -/
structure TreeSt where
  buf : List Nat
  lutsid : LutSt
  deriving DecidableEq, Repr

/-- The disk (`uicc_disk_st`): the forest (list of trees in chain order)
and the disk-wide ID LUT. -/
structure Disk where
  trees : List TreeSt
  lutid : LutSt
  deriving DecidableEq, Repr

/-- The disk with no trees and a zeroed ID LUT (result of
`uicc_disk_root_empty` + `uicc_disk_lutid_empty`). -/
def emptyDisk : Disk := { trees := [], lutid := emptyLut }

/-- Embeds `uicc_disk_tree_file_root` (disk.c): parse the file at offset 0 and
require it to be an MF or ADF. -/
def treeFileRoot (t : TreeSt) : Option FsFile :=
  match filePrs t.buf 0 with
  | some f => if f.type = .adf ∨ f.type = .mf then some f else none
  | none => none

/-- Modelled from the spec: `uicc_disk_tree_file_parent` is not under
`src/`.  Per spec §3, `offset_prel` is the offset from the start of the
parent's header to this item (0 for a tree root), so the parent lies at
tree-relative offset `offset_trel - offset_prel`; for a root this re-parses
the root itself. -/
def fileParent (t : TreeSt) (f : FsFile) : Option FsFile :=
  filePrs t.buf (f.offset_trel - f.offset_prel)

/-- The return-code taxonomy `uicc_ret_et` (the members the embedded code
distinguishes): `success`, `error` (`UICC_RET_ERROR` / `FS_FAILURE`),
`notFound` (`UICC_RET_FS_NOT_FOUND`), `paramBad` (`UICC_RET_PARAM_BAD`) and
`unknown` (`UICC_RET_UNKNOWN`). -/
inductive Ret where
  | success
  | error
  | notFound
  | paramBad
  | unknown
  deriving DecidableEq, Repr

/-- The `i`-th entry (width `s`) of a LUT buffer. -/
def lutEntry (buf : List Nat) (s i : Nat) : List Nat :=
  (buf.drop (s * i)).take s

/-- Fact: `memcmp` on equal-width byte sequences (lexicographic). -/
def bytesCmp : List Nat → List Nat → Ordering
  | [], [] => .eq
  | [], _ :: _ => .lt
  | _ :: _, [] => .gt
  | a :: as, b :: bs =>
    if a < b then .lt else if b < a then .gt else bytesCmp as bs

/-- The `while (start < end)` loop of the binary search of `lut_insert`
(disk.c:50-63), with explicit fuel: every iteration shrinks `stop - start`,
so `lutSearch` below always supplies enough fuel and the fuel-out arm is
unreachable. -/
def lutSearchGo (buf : List Nat) (s : Nat) (e1 : List Nat) :
    Nat → Nat → Nat → Nat
  | 0, start, _ => start
  | fuel + 1, start, stop =>
    if start < stop then
      let mid := (start + stop) / 2
      if bytesCmp (lutEntry buf s mid) e1 = .lt then
        lutSearchGo buf s e1 fuel (mid + 1) stop
      else
        lutSearchGo buf s e1 fuel start mid
    else start

/-- The binary search of `lut_insert` (disk.c): find the first position in
`[start, stop)` whose entry is not `memcmp`-smaller than `e1`. -/
def lutSearch (buf : List Nat) (s : Nat) (e1 : List Nat) (start stop : Nat) :
    Nat :=
  lutSearchGo buf s e1 (stop - start + 1) start stop

/-- The `memmove`/`memcpy` pair of `lut_insert`: shift entries
`[start, cnt)` of a capacity-sized buffer one slot up and write `e` at
`start`. -/
def lutInsertShift (buf : List Nat) (s cnt start : Nat) (e : List Nat) :
    List Nat :=
  buf.take (s * start) ++ e ++ (buf.drop (s * start)).take (s * (cnt - start))
    ++ buf.drop (s * (cnt + 1))

/-- Embeds `lut_insert` (disk.c:24).  When the LUT is full it is grown by 8
entries: the source `malloc`s two fresh buffers and installs them without
copying the old contents (freshly mapped memory is modelled as zero-filled);
then the sorted position is found by binary search and the entry inserted.
`malloc` failure is not modelled, so insertion always yields a LUT. -/
def lutInsert (lut : LutSt) (e1 e2 : List Nat) : LutSt :=
  let lut :=
    if lut.count_max ≤ lut.count then
      { lut with
        count_max := lut.count_max + 8
        buf1 := List.replicate ((lut.count_max + 8) * lut.size_item1) 0
        buf2 := List.replicate ((lut.count_max + 8) * lut.size_item2) 0 }
    else lut
  let start := lutSearch lut.buf1 lut.size_item1 e1 0 lut.count
  { lut with
    buf1 := lutInsertShift lut.buf1 lut.size_item1 lut.count start e1
    buf2 := lutInsertShift lut.buf2 lut.size_item2 lut.count start e2
    count := lut.count + 1 }

/-- The linear scans of `uicc_disk_lutsid_lookup` / `uicc_disk_lutid_lookup`:
first index `i < count` (scanning upward from `i`) whose entry equals
`key`. -/
def lutScan (buf : List Nat) (s : Nat) (key : List Nat) :
    Nat → Nat → Option Nat
  | 0, _ => none
  | n + 1, i =>
    if bytesCmp (lutEntry buf s i) key = .eq then some i
    else lutScan buf s key n (i + 1)

/-- Result of a LUT lookup: on `SUCCESS` the C functions always populate the
output file, so the success and failure cases are kept separate. -/
inductive SidLookupRes where
  | found (f : FsFile)
  | miss (r : Ret)
  deriving DecidableEq, Repr

/-- Result of `uicc_disk_lutid_lookup`, which also yields the owning tree. -/
inductive IdLookupRes where
  | found (t : TreeSt) (f : FsFile)
  | miss (r : Ret)
  deriving DecidableEq, Repr

/-- Embeds `uicc_disk_lutsid_lookup` (disk.c:689): sanity-check the SID LUT shape,
linearly scan the 1-byte keys, bound-check the stored offset and parse the
file there. -/
def lutsidLookup (t : TreeSt) (sid : Nat) : SidLookupRes :=
  let lut := t.lutsid
  if lut.buf1 = [] ∨ lut.size_item1 ≠ 1 ∨ lut.size_item2 ≠ 4 then .miss .error
  else
    match lutScan lut.buf1 1 [sid] lut.count 0 with
    | none => .miss .notFound
    | some i =>
      let offset := readU32LE lut.buf2 (4 * i)
      if lenAtLeast t.buf (offset + 1) = false then .miss .error
      else
        match filePrs t.buf offset with
        | none => .miss .error
        | some f => .found f

/-- Embeds `uicc_disk_lutsid_lookup` through a possibly-`NULL` tree pointer (the
callers pass `fs->va.cur_tree`; on `NULL` the function reports
`PARAM_BAD`). -/
def lutsidLookupOpt (ot : Option TreeSt) (sid : Nat) : SidLookupRes :=
  match ot with
  | none => .miss .paramBad
  | some t => lutsidLookup t sid

/-- Embeds `uicc_disk_lutid_lookup` (disk.c:736): sanity-check the ID LUT shape,
scan the big-endian 2-byte keys for `htobe16(id)`, decode the
`(offset, tree index)` value, walk the tree chain to that index and parse
the file at the offset. -/
def lutidLookup (d : Disk) (id : Nat) : IdLookupRes :=
  let lut := d.lutid
  if lut.buf1 = [] ∨ lut.size_item1 ≠ 2 ∨ lut.size_item2 ≠ 5 then .miss .error
  else
    match lutScan lut.buf1 2 (be16 id) lut.count 0 with
    | none => .miss .notFound
    | some i =>
      let offset := readU32LE lut.buf2 (5 * i)
      let treeIdx := lut.buf2.getD (5 * i + 4) 0
      match d.trees.get? treeIdx with
      | none => .miss .error
      | some t =>
        if lenAtLeast t.buf (offset + 1) = false then .miss .error
        else
          match filePrs t.buf offset with
          | none => .miss .error
          | some f => .found t f

/-- Embeds `uicc_disk_file_rcrd_cnt` (disk.c:846): record count of a linear-fixed
or cyclic EF is `data_size / rcrd_size`; a `NULL` tree gives `PARAM_BAD`,
any other file type an error. -/
def fileRcrdCnt (ot : Option TreeSt) (f : FsFile) : Ret × Nat :=
  match ot with
  | none => (.paramBad, 0)
  | some _ =>
    match f.type with
    | .efLinearFixed => (.success, f.data_size / f.rcrd_size)
    | .efCyclic => (.success, f.data_size / f.rcrd_size)
    | _ => (.error, 0)

/-- Embeds `uicc_disk_file_rcrd` (disk.c:801): slice record `idx`
(`data[idx*rcrd_size .. (idx+1)*rcrd_size]`) out of a record-oriented EF,
with the bound checks of the source. -/
def fileRcrd (ot : Option TreeSt) (f : FsFile) (idx : Nat) :
    Ret × List Nat × Nat :=
  match ot with
  | none => (.paramBad, [], 0)
  | some _ =>
    if f.type = .efLinearFixed ∨ f.type = .efCyclic then
      let rs := f.rcrd_size
      match fileRcrdCnt ot f with
      | (.success, cnt) =>
        if cnt ≤ idx then (.notFound, [], 0)
        else
          let off := rs * idx
          if f.data_size ≤ off then (.error, [], 0)
          else (.success, (f.data.drop off).take rs, rs)
      | _ => (.error, [], 0)
    else (.error, [], 0)

/-- The header length the walk skips to reach a folder's first child
(disk.c:345): the raw file header, plus the AID extension for an ADF root
(see `fileRawSize` / `adfAidSize` for the modelled raw sizes). -/
def foreachHdrLen (t : ItemType) : Nat :=
  fileRawSize + (if t = .adf then adfAidSize else 0)

/-- Outcome of the depth-first file walk: finished with the folded state,
stopped on an error (parse failure, callback failure, invalid item,
cursor overflow), or ran out of fuel (the C loop would not have
terminated). -/
inductive WalkRes (σ : Type) where
  | ok (s : σ)
  | err
  | fuelOut
  deriving DecidableEq, Repr

/-- The loop body of `uicc_disk_tree_file_foreach` (disk.c:352-421).
State: the per-depth tree-relative cursors `stack` (3 slots), the current
`depth` and the folded callback state.  Faithful to the source: the loop
runs while `depth < 3`; a cursor that reached the *root's* size pops one
level (an `if`, falling through to the parse); folders push a new level
with the cursor advanced past their header; EFs advance the cursor by
their full size. -/
def foreachGo {σ : Type} (buf : List Nat) (rootSize : Nat)
    (cb : FsFile → σ → Option σ) :
    List Nat → List Nat → Nat → σ → WalkRes σ
  | [], _, _, _ => .fuelOut
  | _ :: fuel, stack, depth, s =>
    if 3 ≤ depth then .ok s
    else
      match
        (if rootSize ≤ stack.getD (depth - 1) 0 then
          (if depth - 1 < 1 then none
           else some (stack.set (depth - 2) (stack.getD (depth - 1) 0),
                      depth - 1))
         else some (stack, depth)) with
      | none => .ok s
      | some (stack, depth) =>
        match filePrs buf (stack.getD (depth - 1) 0) with
        | none => .err
        | some f =>
          match cb f s with
          | none => .err
          | some s =>
            match f.type with
            | .mf | .adf | .df =>
              let c := stack.getD (depth - 1) 0
              let stack := stack.set depth c
              let cNew := c + foreachHdrLen f.type
              if 4294967295 < cNew then .err
              else foreachGo buf rootSize cb fuel (stack.set depth cNew)
                     (depth + 1) s
            | .efTransparent | .efLinearFixed | .efCyclic =>
              foreachGo buf rootSize cb fuel
                (stack.set (depth - 1) (stack.getD (depth - 1) 0 + f.size))
                depth s
            | .invalid => .err
            | _ => foreachGo buf rootSize cb fuel stack depth s

/-- Embeds `uicc_disk_tree_file_foreach` (disk.c:320): visit the root, then run the
bounded-stack depth-first walk over the tree bytes.  The fuel (one step per
list element) dominates the iteration count of every terminating run: each
iteration either advances a cursor by at least a header or pops, and at
most 16 pop/descend steps separate consecutive advances. -/
def treeFileForeach {σ : Type} (t : TreeSt) (cb : FsFile → σ → Option σ)
    (s0 : σ) : WalkRes σ :=
  match treeFileRoot t with
  | none => .err
  | some root =>
    match cb root s0 with
    | none => .err
    | some s1 =>
      if root.type = .mf ∨ root.type = .adf then
        foreachGo t.buf root.size cb (t.buf ++ List.replicate 16 0)
          [foreachHdrLen root.type, 0, 0] 1 s1
      else .err

/-- SID-LUT rebuild callback (`lutsid_rebuild_cb`, disk.c:641): skip files
without a SID, insert `(sid, offset_trel)` otherwise. -/
def lutsidCb (f : FsFile) (lut : LutSt) : Option LutSt :=
  if f.sid = 0 then some lut
  else some (lutInsert lut [f.sid] (u32le f.offset_trel))

/-- Embeds `uicc_disk_lutsid_rebuild` (disk.c:656): reset the SID LUT to a fresh
64-entry table (1-byte keys, 4-byte offsets) and walk the tree inserting
every file with a SID; on a failed walk the LUT is emptied and the rebuild
reports failure (`none`). -/
def lutsidRebuild (t : TreeSt) : Option TreeSt :=
  let lut0 : LutSt :=
    { size_item1 := 1, size_item2 := 4, count := 0, count_max := 64,
      buf1 := List.replicate 64 0, buf2 := List.replicate 256 0 }
  match treeFileForeach { t with lutsid := lut0 } lutsidCb lut0 with
  | .ok lut => some { t with lutsid := lut }
  | _ => none

/-- ID-LUT rebuild callback (`lutid_rebuild_cb`, disk.c:569): skip files
without an ID, insert `(htobe16(id), offset_trel || tree_idx)` otherwise. -/
def lutidCb (treeIdx : Nat) (f : FsFile) (lut : LutSt) : Option LutSt :=
  if f.id = 0 then some lut
  else some (lutInsert lut (be16 f.id) (u32le f.offset_trel ++ [treeIdx]))

/-- The per-tree loop of `uicc_disk_lutid_rebuild`. -/
def lutidRebuildGo : List TreeSt → Nat → LutSt → Option LutSt
  | [], _, lut => some lut
  | t :: rest, treeIdx, lut =>
    match treeFileForeach t (lutidCb treeIdx) lut with
    | .ok lut => lutidRebuildGo rest (treeIdx + 1) lut
    | _ => none

/-- Embeds `uicc_disk_lutid_rebuild` (disk.c:595): reset the ID LUT to a fresh
64-entry table (2-byte big-endian keys, 4-byte offset + 1-byte tree index
values) and walk every tree in chain order inserting files with an ID.
With no trees the return code stays `ERROR`; on any failed walk the LUT is
emptied and the rebuild fails (`none`). -/
def lutidRebuild (d : Disk) : Option Disk :=
  let lut0 : LutSt :=
    { size_item1 := 2, size_item2 := 5, count := 0, count_max := 64,
      buf1 := List.replicate 128 0, buf2 := List.replicate 320 0 }
  match d.trees with
  | [] => none
  | _ =>
    match lutidRebuildGo d.trees 0 lut0 with
    | some lut => some { d with lutid := lut }
    | none => none

/-- Modelled from the spec: the 8-byte image magic `UICC_DISK_MAGIC` (spec
§6: Magic prefix of 8 bytes, the image format tag); the constant's value
is not under `src/`, only its length matters to the embedded code. -/
def diskMagic : List Nat := [0x55, 0x49, 0x43, 0x43, 0x44, 0x49, 0x53, 0x4B]

/-- The tree-parsing loop of `uicc_disk_load` (disk.c:124-217): while bytes
remain, read a 10-byte item header, demand a valid root type (tree 0 must
be the MF, later trees ADFs), then take the item's `size` bytes as the
tree buffer.  A short read (fewer than 10 header bytes, or fewer than
`size - 10` remaining content bytes — including a `size` below the header
size, whose unsigned `size - 10` cannot be satisfied) fails the load. -/
def loadTrees (bytes : List Nat) :
    List Nat → Nat → Nat → Option (List (List Nat))
  | [], _, _ => none
  | _ :: fuel, idx, treeIdx =>
    if lenAtLeast bytes (idx + 1) = false then some []
    else if lenAtLeast bytes (idx + 10) = false then none
    else
      let size := readU32LE bytes idx
      let ty := decodeItemType (bytes.getD (idx + 5) 0)
      if ty = .invalid ∨ (treeIdx = 0 ∧ ty ≠ .mf) ∨
          (treeIdx ≠ 0 ∧ ty ≠ .adf) then none
      else if size < 10 ∨ lenAtLeast bytes (idx + size) = false then none
      else
        match loadTrees bytes fuel (idx + size) (treeIdx + 1) with
        | some rest => some (((bytes.drop idx).take size) :: rest)
        | none => none

/-- The SID-LUT rebuild loop of `uicc_disk_load` (disk.c:246-254) over the
freshly parsed trees. -/
def loadRebuildSids : List TreeSt → Option (List TreeSt)
  | [] => some []
  | t :: rest =>
    match lutsidRebuild t with
    | none => none
    | some t' =>
      match loadRebuildSids rest with
      | none => none
      | some rest' => some (t' :: rest')

/-- Embeds `uicc_disk_load` (disk.c:76) over the bytes of the image file.  A disk
that already has trees is rejected up front (and left untouched).
Otherwise the disk is cleared, the magic checked, the trees parsed, the
SID LUTs and the ID LUT rebuilt; every failure leaves the empty disk
(`uicc_disk_root_empty`).  The boolean is `true` exactly on
`UICC_RET_SUCCESS`. -/
def diskLoad (d0 : Disk) (bytes : List Nat) : Bool × Disk :=
  if d0.trees ≠ [] then (false, d0)
  else if lenAtLeast bytes 8 = false then (false, emptyDisk)
  else if bytes.take 8 ≠ diskMagic then (false, emptyDisk)
  else
    match loadTrees bytes (0 :: bytes) 8 0 with
    | none => (false, emptyDisk)
    | some bufs =>
      match bufs with
      | [] => (false, emptyDisk)
      | _ =>
        match loadRebuildSids (bufs.map fun b => TreeSt.mk b emptyLut) with
        | none => (false, emptyDisk)
        | some trees =>
          match lutidRebuild { trees := trees, lutid := emptyLut } with
          | none => (false, emptyDisk)
          | some d => (true, d)

/-- The record handle of the VA (`uicc_fs_rcrd_st`): only the index is set
by the embedded code (`{.idx = idx}` zeroes the rest). -/
structure Rcrd where
  idx : Nat
  deriving DecidableEq, Repr

/-- The virtual-application selection state (`va` of `uicc_fs_st`): the
current tree (a `NULL`-able pointer) and file-header snapshots.  An absent
file slot holds the `memset`-zero file (`type = invalid`). -/
structure Va where
  cur_tree : Option TreeSt
  cur_adf : FsFile
  cur_df : FsFile
  cur_ef : FsFile
  cur_file : FsFile
  cur_rcrd : Rcrd
  deriving DecidableEq, Repr

/-- The `memset`-cleared VA. -/
def clearedVa : Va :=
  { cur_tree := none, cur_adf := zeroFile, cur_df := zeroFile,
    cur_ef := zeroFile, cur_file := zeroFile, cur_rcrd := ⟨0⟩ }

/-- The file-system state (`uicc_fs_st`): the mounted disk and the VA. -/
structure Fs where
  disk : Disk
  va : Va
  deriving DecidableEq, Repr

/-- Embeds `va_select_file` (common.h:90): resolve the tree root and the file's
parent, then rewrite the VA according to the type of the selected file;
the VA is cleared and rebuilt only in the success cases.  For EFs the
current DF is always rebound to the EF's parent (the deviation from ISO
7816-4 §7.2.2 flagged in the source). -/
def vaSelectFile (fs : Fs) (t : TreeSt) (f : FsFile) : Ret × Fs :=
  match treeFileRoot t with
  | none => (.error, fs)
  | some root =>
    match fileParent t f with
    | none => (.error, fs)
    | some parent =>
      match f.type with
      | .mf | .adf =>
        (.success, { fs with va :=
          { clearedVa with cur_tree := some t, cur_adf := f, cur_df := f,
                           cur_file := f } })
      | .df =>
        (.success, { fs with va :=
          { clearedVa with cur_tree := some t, cur_adf := root, cur_df := f,
                           cur_file := f } })
      | .efTransparent | .efLinearFixed | .efCyclic =>
        (.success, { fs with va :=
          { clearedVa with cur_tree := some t, cur_adf := root,
                           cur_df := parent, cur_ef := f, cur_file := f } })
      | _ => (.error, fs)

/-- Embeds `swicc_va_select_file_id` (common.h:207): disk-wide ID LUT lookup, then
`va_select_file`. -/
def vaSelectFileId (fs : Fs) (fid : Nat) : Ret × Fs :=
  match lutidLookup fs.disk fid with
  | .found t f => vaSelectFile fs t f
  | .miss r => (r, fs)

/-- Embeds `swicc_va_select_file_sid` (common.h:220): SID LUT lookup in the current
tree (`PARAM_BAD` when no tree is selected), then `va_select_file`. -/
def vaSelectFileSid (fs : Fs) (sid : Nat) : Ret × Fs :=
  match fs.va.cur_tree with
  | none => (.paramBad, fs)
  | some t =>
    match lutsidLookup t sid with
    | .found f => vaSelectFile fs t f
    | .miss r => (r, fs)

/-- Embeds `swicc_va_reset` (common.h:144): `memset` the VA to zero *first*, then
(if the disk has a root) select the MF by FID `0x3F00`. -/
def vaReset (fs : Fs) : Ret × Fs :=
  let fs := { fs with va := clearedVa }
  if fs.disk.trees = [] then (.error, fs)
  else vaSelectFileId fs 0x3F00

/-- The do-while of `swicc_va_select_adf` over the trees after the head
(the iterator is advanced before the first root is inspected, so the MF
tree is skipped). -/
def vaSelectAdfGo (fs : Fs) (aid : List Nat) (pixLen : Nat) :
    List TreeSt → Ret × Fs
  | [] => (.notFound, fs)
  | t :: rest =>
    match treeFileRoot t with
    | none => (.error, fs)
    | some root =>
      if root.type = .adf then
        if root.rid = aid.take 5 ∧
            root.pix.take pixLen = (aid.drop 5).take pixLen then
          vaSelectFile fs t root
        else vaSelectAdfGo fs aid pixLen rest
      else (.error, fs)

/-- Embeds `swicc_va_select_adf` (common.h:160): scan the non-head trees for the
first ADF whose RID matches `aid[0..5)` and whose first `pixLen` PIX bytes
match `aid[5..5+pixLen)`, and select its root. -/
def vaSelectAdf (fs : Fs) (aid : List Nat) (pixLen : Nat) : Ret × Fs :=
  match fs.disk.trees with
  | [] => (.error, fs)
  | _ :: rest => vaSelectAdfGo fs aid pixLen rest

/-- Embeds `swicc_va_select_record_idx` (common.h:239): allowed when the current EF
is linear-fixed or cyclic and `uicc_disk_file_rcrd_cnt` *returns
successfully* (the computed count is never inspected); on success only the
record handle is replaced. -/
def vaSelectRecordIdx (fs : Fs) (idx : Nat) : Ret × Fs :=
  if fs.va.cur_ef.type = .efLinearFixed ∨ fs.va.cur_ef.type = .efCyclic then
    match (fileRcrdCnt fs.va.cur_tree fs.va.cur_ef).1 with
    | .success =>
      (.success, { fs with va := { fs.va with cur_rcrd := ⟨idx⟩ } })
    | _ => (.error, fs)
  else (.error, fs)

/-- A command APDU as seen by a handler: instruction byte, parameters, the
`p3` length byte and the received data field. -/
structure ApduCmd where
  ins : Nat
  p1 : Nat
  p2 : Nat
  p3 : Nat
  data : List Nat
  deriving DecidableEq, Repr

/-- A response APDU: `SW1`, `SW2` and the immediate data bytes. -/
structure ApduRes where
  sw1 : Nat
  sw2 : Nat
  data : List Nat
  deriving DecidableEq, Repr

/-- Modelled from the spec: `UICC_APDU_SW1_PROC_ACK_ALL` lives in the
missing `uicc/apdu.h`; spec §4.5.1 describes the ACK-ALL procedure response
as `SW1 = 0x90` with `res.data.len = p3`. -/
def sw1AckAll : Nat := 0x90

/-- Modelled from the spec: `cur_root` of the VA struct — used only by
`apduh_bin_read` (apduh.c:747) — is not declared anywhere under `src/` and
the spec's VA tuple (§3) does not carry it; it is modelled by its name as
the snapshot of the *current tree's root file*, whose data window this
returns (empty when no tree is selected). -/
def curRootData (fs : Fs) : List Nat :=
  match fs.va.cur_tree with
  | none => []
  | some t =>
    match filePrs t.buf 0 with
    | none => []
    | some root => root.data

/-- The read/status phase of `apduh_bin_read` once the target file and the
decoded offset are known (apduh.c:728-797): the target must be a
transparent EF, the offset in bounds; `min(Ne, (uint8_t)(data_size -
offset))` bytes are copied *from `va.cur_root.data`* (see `curRootData`),
with SW `0x9000` on a full read and `0x6282` on a short one; in SFI mode a
successful read additionally reselects the file by SID. -/
def binReadFile (fs : Fs) (f : FsFile) (offset lenExpected : Nat)
    (sidUse : Bool) (sid : Nat) : ApduRes × Fs :=
  if f.type = .efTransparent then
    if f.data_size ≤ offset then (⟨0x6B, 0, []⟩, fs)
    else
      let lenReadable := sub32 f.data_size offset % 256
      let lenRead := if lenReadable < lenExpected then lenReadable
                     else lenExpected
      let out := ((curRootData fs).drop offset).take lenRead
      let res : ApduRes :=
        if lenRead < lenExpected then ⟨0x62, 0x82, out⟩ else ⟨0x90, 0, out⟩
      if sidUse then
        match vaSelectFileSid fs sid with
        | (.success, fs') => (res, fs')
        | (_, fs') => (⟨0x6F, 0, []⟩, fs')
      else (res, fs)
  else (⟨0x69, 0x81, []⟩, fs)

/-- Embeds `apduh_bin_read` (apduh.c:613): READ BINARY.  Odd instruction 0xB1 is
rejected; the first entry answers with the ACK-ALL procedure expecting no
data; the second entry demands an empty data field, decodes either the SFI
mode (`p1 & 0x80`) or the 15-bit offset mode and reads through
`binReadFile`. -/
def apduhBinRead (fs : Fs) (cmd : ApduCmd) (procedureCount : Nat) :
    ApduRes × Fs :=
  if cmd.ins ≠ 0xB0 then (⟨0x6D, 0, []⟩, fs)
  else if procedureCount = 0 then (⟨sw1AckAll, 0, []⟩, fs)
  else if cmd.data.length ≠ 0 then (⟨0x67, 0x02, []⟩, fs)
  else if cmd.p1 &&& 0x80 ≠ 0 then
    if cmd.p1 &&& 0x60 ≠ 0 then (⟨0x6A, 0x86, []⟩, fs)
    else
      let sid := cmd.p1 &&& 0x1F
      match lutsidLookupOpt fs.va.cur_tree sid with
      | .miss .notFound => (⟨0x6A, 0x82, []⟩, fs)
      | .miss _ => (⟨0x6F, 0, []⟩, fs)
      | .found f => binReadFile fs f cmd.p2 cmd.p3 true sid
  else
    let offset := ((cmd.p1 &&& 0x7F) <<< 8) ||| cmd.p2
    let f := fs.va.cur_ef
    if f.type = .invalid then (⟨0x69, 0x86, []⟩, fs)
    else binReadFile fs f offset cmd.p3 false 0

/-- The target resolution of `apduh_rcrd_read` (apduh.c:979-995): target
selector 0 takes the current EF (always reporting success), any other
non-0x1F selector is an SFI looked up in the current tree's SID LUT. -/
def rcrdTarget (fs : Fs) (p2Val : Nat) : SidLookupRes :=
  if p2Val = 0 then .found fs.va.cur_ef
  else lutsidLookupOpt fs.va.cur_tree p2Val

/-- Embeds `apduh_rcrd_read` (apduh.c:809): READ RECORD.  Odd instruction 0xB3 is
rejected, then the two-phase procedure protocol runs as for READ BINARY.
P2 decodes into the target selector (bits 7:3), the record-ID/number method
(bit 2) and the `what` span (bits 1:0); only record-number mode on the
current EF or an SFI target is implemented.  After a successful record
fetch, a wrong `Ne` is answered with `0x6C` + correct length *before* any
selection; otherwise the file (for SFI targets) and the record are selected
and the record bytes returned with `0x9000`. -/
def apduhRcrdRead (fs : Fs) (cmd : ApduCmd) (procedureCount : Nat) :
    ApduRes × Fs :=
  if cmd.ins ≠ 0xB2 then (⟨0x6D, 0, []⟩, fs)
  else if procedureCount = 0 then (⟨sw1AckAll, 0, []⟩, fs)
  else if cmd.data.length ≠ 0 then (⟨0x67, 0x02, []⟩, fs)
  else
    let p2Val := cmd.p2 >>> 3
    let methNum := cmd.p2 &&& 0b100 ≠ 0
    let what := cmd.p2 &&& 0b11
    if cmd.p2 = 0b11111000 ∨ ¬methNum ∨ p2Val = 0b11111 then
      (⟨0x6A, 0x81, []⟩, fs)
    else if what = 0b11 ∨ cmd.p1 = 0x00 ∨ cmd.p1 = 0xFF then
      (⟨0x6A, 0x86, []⟩, fs)
    else
      let rcrdIdx := cmd.p1 - 1
      match rcrdTarget fs p2Val with
      | .miss .notFound => (⟨0x6A, 0x82, []⟩, fs)
      | .miss _ => (⟨0x6F, 0, []⟩, fs)
      | .found ef =>
        match fileRcrd fs.va.cur_tree ef rcrdIdx with
        | (.notFound, _, _) => (⟨0x6A, 0x83, []⟩, fs)
        | (.success, bytes, rcrdLen) =>
          if cmd.p3 ≠ rcrdLen then (⟨0x6C, rcrdLen, []⟩, fs)
          else
            match (if p2Val ≠ 0 then vaSelectFileSid fs ef.sid
                   else (.success, fs)) with
            | (.success, fs1) =>
              match vaSelectRecordIdx fs1 rcrdIdx with
              | (.success, fs2) => (⟨0x90, 0, bytes⟩, fs2)
              | (_, fs2) => (⟨0x6F, 0, []⟩, fs2)
            | (_, fs1) => (⟨0x6F, 0, []⟩, fs1)
        | (_, _, _) => (⟨0x6F, 0, []⟩, fs)

/-- The process-wide response buffer (`uicc_state->internal.res`): a byte
store with a `{len, offset}` cursor. -/
structure ResBuf where
  b : List Nat
  len : Nat
  offset : Nat
  deriving DecidableEq, Repr

/-- Embeds `apduh_res_get` (apduh.c:1081): GET RESPONSE.  After the procedure
protocol and the `P1 = P2 = 0` check, `available = len - offset` pending
bytes are compared with `Ne = p3`; on `available ≥ Ne` the source copies
`Ne` bytes **from the start of the buffer** (`res.b[0]`, apduh.c:1147 and
:1171) while advancing the cursor, answering `0x9000` when the buffer is
exhausted and `SW1 = 0x61` + remaining count otherwise. -/
def apduhResGet (resb : ResBuf) (cmd : ApduCmd) (procedureCount : Nat) :
    ApduRes × ResBuf :=
  if procedureCount = 0 then (⟨sw1AckAll, 0, []⟩, resb)
  else if cmd.data.length ≠ 0 then (⟨0x67, 0x01, []⟩, resb)
  else if cmd.p1 ≠ 0 ∨ cmd.p2 ≠ 0 then (⟨0x6A, 0x86, []⟩, resb)
  else if cmd.p3 = 0 then (⟨0x90, 0, []⟩, resb)
  else
    let available := sub16 resb.len resb.offset
    if available < cmd.p3 then (⟨0x62, 0x82, []⟩, resb)
    else if available = cmd.p3 then
      (⟨0x90, 0, resb.b.take cmd.p3⟩, { resb with offset := resb.len })
    else
      let remaining := available - cmd.p3
      if 255 < remaining then (⟨0x6F, 0, []⟩, resb)
      else
        (⟨0x61, remaining, resb.b.take cmd.p3⟩,
         { resb with offset := (resb.offset + cmd.p3) % 65536 })

/-- The selection methods decoded from P1 by `apduh_select`
(apduh.c:104-128). -/
inductive SelMeth where
  | rfuMeth
  | mfDfEf
  | dfNested
  | efNested
  | dfParent
  | dfName
  | mfPath
  | dfPath
  | doSel
  | doParent
  deriving DecidableEq, Repr

/-- P1 decode of `apduh_select` (apduh.c:152-184). -/
def selMethOfP1 (p1 : Nat) : SelMeth :=
  match p1 with
  | 0x00 => .mfDfEf
  | 0x01 => .dfNested
  | 0x02 => .efNested
  | 0x03 => .dfParent
  | 0x04 => .dfName
  | 0x08 => .mfPath
  | 0x09 => .dfPath
  | 0x10 => .doSel
  | 0x13 => .doParent
  | _ => .rfuMeth

/-- The response kinds decoded from P2 bits 3:2 by `apduh_select`. -/
inductive DataReq where
  | rfuReq
  | fci
  | fcp
  | fmd
  | tags
  | absent
  deriving DecidableEq, Repr

/-- P2 bits 3:2 decode of `apduh_select` (apduh.c:202-226); the value
`0b10` means a tag list only for DO-related methods, FMD otherwise.  The C
switch is over `p2 & 0b1100` whose four values are matched exhaustively
(`(p2 >>> 2) &&& 3` here); its `default` arm is unreachable. -/
def dataReqOfP2 (p2 : Nat) (m : SelMeth) : DataReq :=
  match (p2 >>> 2) &&& 3 with
  | 0 => .fci
  | 1 => .fcp
  | 2 => if m = .doSel ∨ m = .doParent then .tags else .fmd
  | 3 => .absent
  | _ + 4 => .rfuReq

/-- The occurrence selector decoded from P2 bits 1:0 (`uicc_fs_occ_et`). -/
def occOfP2 (p2 : Nat) : Nat := p2 &&& 3

/-- Outcome of `apduh_select`: either a finished response (with the
possibly-updated file-system state), or — after a successful selection that
requests FCI/FCP/FMD data — the hand-off to the BER-TLV response
construction, which no claim touches and which is therefore kept as an
explicit unevaluated stage (carrying the selected file and whether it is a
folder). -/
inductive SelectOut where
  | done (res : ApduRes) (fs : Fs)
  | tlvStage (fs : Fs) (fileSelected : FsFile) (folder : Bool) (req : DataReq)
  deriving DecidableEq, Repr

/-- The selection dispatch of `apduh_select` (apduh.c:242-325): for
`METH_MF_DF_EF` a 2-byte body selects by FID (byte-swapped from the wire),
a 5..16-byte body selects an ADF by AID, anything else is an error; the
nested/parent methods always fail; DF-name and the two path methods reach
their unimplemented stubs (which answer `UICC_RET_UNKNOWN`) when their
guards pass. -/
def selectPerform (fs : Fs) (meth : SelMeth) (occ : Nat) (data : List Nat) :
    Ret × Fs :=
  match meth with
  | .mfDfEf =>
    if data.length ≠ 2 then
      if 16 < data.length ∨ data.length < 5 then (.error, fs)
      else vaSelectAdf fs data (data.length - 5)
    else vaSelectFileId fs (data.getD 0 0 * 256 + data.getD 1 0)
  | .dfNested => (.error, fs)
  | .efNested => (.error, fs)
  | .dfParent => (.error, fs)
  | .dfName =>
    if data.length = 0 ∨ occ ≠ 0 then (.error, fs) else (.unknown, fs)
  | .mfPath =>
    if data.length < 2 ∨ occ ≠ 0 then (.error, fs) else (.unknown, fs)
  | .dfPath =>
    if data.length < 2 ∨ occ ≠ 0 then (.error, fs) else (.unknown, fs)
  | _ => (.error, fs)

/-- Embeds `apduh_select` (apduh.c:43): SELECT.  Order of the source: the
`p2 & 0xF0` RFU check, the two-phase procedure protocol, the P1/P2 decode,
the rejection of RFU/DO methods, the selection itself, the `NotFound` /
generic-failure mapping, the determination of the selected file
(`cur_ef` if set, else `cur_df`), and the response: `0x9000` immediately
when no data was requested, otherwise the BER-TLV stage. -/
def apduhSelect (fs : Fs) (cmd : ApduCmd) (procedureCount : Nat) :
    SelectOut :=
  if cmd.p2 &&& 0xF0 ≠ 0 then .done ⟨0x6A, 0x86, []⟩ fs
  else if procedureCount = 0 ∧ cmd.data.length ≠ 0 then .done ⟨0x6F, 0, []⟩ fs
  else if procedureCount = 0 ∧ 0 < cmd.p3 then
    .done ⟨sw1AckAll, 0, List.replicate cmd.p3 0⟩ fs
  else if cmd.data.length ≠ cmd.p3 ∧ 1 ≤ procedureCount then
    .done ⟨0x67, 0x02, []⟩ fs
  else
    let meth := selMethOfP1 cmd.p1
    let req := dataReqOfP2 cmd.p2 meth
    let occ := occOfP2 cmd.p2
    if meth = .rfuMeth ∨ req = .rfuReq ∨ meth = .doSel ∨ meth = .doParent then
      .done ⟨0x6B, 0, []⟩ fs
    else
      match selectPerform fs meth occ cmd.data with
      | (.notFound, fs') => .done ⟨0x6A, 0x82, []⟩ fs'
      | (.success, fs') =>
        if fs'.va.cur_ef.type ≠ .invalid then
          if req = .absent then .done ⟨0x90, 0, []⟩ fs'
          else .tlvStage fs' fs'.va.cur_ef false req
        else if fs'.va.cur_df.type ≠ .invalid then
          if req = .absent then .done ⟨0x90, 0, []⟩ fs'
          else .tlvStage fs' fs'.va.cur_df true req
        else .done ⟨0x6F, 0, []⟩ fs'
      | (_, fs') => .done ⟨0x6F, 0, []⟩ fs'

/-! ## Concrete disks for the scenario theorems -/

/-- A zero-filled 17-byte name field. -/
def name17 : List Nat := List.replicate 17 0

/-- The §8 scenario tree: MF `3F00` (95 bytes) containing DF `7FFF`
(65 bytes, at offset 30) containing transparent EF `6F07` (35 bytes, at
offset 60, SID 7) with data `01 02 03 04 05`. -/
def t95buf : List Nat :=
  u32le 95 ++ [0, 1] ++ u32le 0 ++ [0x00, 0x3F] ++ [0] ++ name17 ++
  u32le 65 ++ [0, 3] ++ u32le 30 ++ [0xFF, 0x7F] ++ [0] ++ name17 ++
  u32le 35 ++ [0, 4] ++ u32le 30 ++ [0x07, 0x6F] ++ [7] ++ name17 ++
  [1, 2, 3, 4, 5]

/-- The §8 scenario tree with its SID LUT (SID 7 ↦ offset 60). -/
def t95 : TreeSt := ⟨t95buf, ⟨1, 4, 1, 64, [7], u32le 60⟩⟩

/-- Parse a file of a tree, defaulting to the zero file. -/
def fileAt (t : TreeSt) (offset : Nat) : FsFile :=
  (filePrs t.buf offset).getD zeroFile

/-- The parsed MF of the §8 tree. -/
def mf95 : FsFile := fileAt t95 0

/-- The parsed DF `7FFF` of the §8 tree. -/
def df95 : FsFile := fileAt t95 30

/-- The parsed EF `6F07` of the §8 tree. -/
def ef95 : FsFile := fileAt t95 60

/-- The mounted §8 disk with a cleared VA. -/
def fs95 : Fs := ⟨⟨[t95], emptyLut⟩, clearedVa⟩

/-- The §8 state after EF `6F07` has been selected. -/
def fs95ef : Fs := (vaSelectFile fs95 t95 ef95).2

/-- Walk a tree collecting the tree-relative offsets of the visited files
(a callback that never fails, as in the spec's `walk(tree)` law). -/
def walkOffsets (t : TreeSt) : WalkRes (List Nat) :=
  treeFileForeach t (fun f l => some (l ++ [f.offset_trel])) []

/-- A 30-byte EF-transparent header with no data. -/
def efHdr (id prel : Nat) : List Nat :=
  u32le 30 ++ [0, 4] ++ u32le prel ++ u16le id ++ [0] ++ name17

/-- A tree whose MF (150 bytes) holds two sibling DFs, each holding one
empty transparent EF: DF₁ at 30 with EF₁ at 60, DF₂ at 90 with EF₂ at
120. -/
def tSibBuf : List Nat :=
  u32le 150 ++ [0, 1] ++ u32le 0 ++ u16le 0 ++ [0] ++ name17 ++
  u32le 60 ++ [0, 3] ++ u32le 30 ++ u16le 0x5F01 ++ [0] ++ name17 ++
  efHdr 0x4F01 30 ++
  u32le 60 ++ [0, 3] ++ u32le 90 ++ u16le 0x5F02 ++ [0] ++ name17 ++
  efHdr 0x4F02 30

/-- The sibling-DF tree with an empty SID LUT. -/
def tSib : TreeSt := ⟨tSibBuf, emptyLut⟩

/-- A flat tree: an MF (id 0) holding 65 empty transparent EFs with FIDs
1..65, EF `i` at offset `30 + 30 i`. -/
def t65Buf : List Nat :=
  u32le 1980 ++ [0, 1] ++ u32le 0 ++ u16le 0 ++ [0] ++ name17 ++
  (List.range 65).flatMap (fun i => efHdr (i + 1) (30 + 30 * i))

/-- The disk holding only the flat 65-EF tree. -/
def d65 : Disk := ⟨[⟨t65Buf, emptyLut⟩], emptyLut⟩

/-- The rebuilt 65-EF disk (the failed-rebuild fallback is never taken, as
the claim theorems show). -/
def d65r : Disk := (lutidRebuild d65).getD emptyDisk

/-- A linear-fixed EF snapshot with `rcrd_size = 3` but only 2 data bytes,
i.e. zero complete records. -/
def lfZeroRcrd : FsFile :=
  { zeroFile with
      type := .efLinearFixed, size := 33, rcrd_size := 3, data_size := 2,
      data := [170, 187] }

/-- A state whose current EF is the zero-record linear-fixed EF. -/
def fsC6 : Fs :=
  ⟨⟨[t95], emptyLut⟩,
   { clearedVa with cur_tree := some t95, cur_ef := lfZeroRcrd }⟩

/-- A state with a non-cleared VA (a selected record index) on a disk with
no MF, for the reset-atomicity counterexample. -/
def fsRcrd5 : Fs := ⟨emptyDisk, { clearedVa with cur_rcrd := ⟨5⟩ }⟩


/-- A tree whose MF (67 bytes) holds one linear-fixed EF `2F01` (37 bytes,
at offset 30, SID 1, `rcrd_size` 3) with data `01..06` — two records. -/
def tLFbuf : List Nat :=
  u32le 67 ++ [0, 1] ++ u32le 0 ++ u16le 0 ++ [0] ++ name17 ++
  u32le 37 ++ [0, 5] ++ u32le 30 ++ u16le 0x2F01 ++ [1] ++ name17 ++ [3] ++
  [1, 2, 3, 4, 5, 6]

/-- The linear-fixed tree with its SID LUT (SID 1 ↦ offset 30). -/
def tLF : TreeSt := ⟨tLFbuf, ⟨1, 4, 1, 64, [1], u32le 30⟩⟩

/-- The parsed linear-fixed EF of `tLF`. -/
def lfEf : FsFile := fileAt tLF 30

/-- The parsed MF root of `tLF`. -/
def mfLF : FsFile := fileAt tLF 0

/-- The linear-fixed disk with the EF selected as current EF. -/
def fsLF : Fs :=
  ⟨⟨[tLF], emptyLut⟩,
   { clearedVa with cur_tree := some tLF, cur_ef := lfEf }⟩

/-- The linear-fixed disk with only the tree selected (SFI-target reads). -/
def fsLFsid : Fs :=
  ⟨⟨[tLF], emptyLut⟩, { clearedVa with cur_tree := some tLF }⟩

/-- An image whose single tree root has type DF (byte 3): valid magic, 38
bytes, first root not an MF. -/
def c8NotMfBytes : List Nat :=
  diskMagic ++ u32le 30 ++ [0, 3] ++ u32le 0 ++ u16le 0 ++ [0] ++ name17

/-- A loadable image: MF `3F00` (60 bytes) holding one transparent EF
`2F00`; flat, so the walk and both LUT rebuilds succeed. -/
def c8LoadableBytes : List Nat :=
  diskMagic ++
  u32le 60 ++ [0, 1] ++ u32le 0 ++ [0x00, 0x3F] ++ [0] ++ name17 ++
  efHdr 0x2F00 30

/-- A non-empty disk, for the load-on-mounted-disk counterexample. -/
def c8StaleDisk : Disk := ⟨[⟨[7], emptyLut⟩], emptyLut⟩

/-! ## The claims -/

set_option maxRecDepth 8000
set_option maxHeartbeats 4000000

/-- Claim C1 (refuted; code bug): on the §8 scenario disk with EF `6F07`
selected, `B0 00 00 05` does answer SW `0x9000`, but the five returned
bytes are `41 00 00 00 00` — the first bytes of the *tree root's* contents
(the DF `7FFF` header) — because `apduh_bin_read` copies from
`va.cur_root.data` (apduh.c:747) instead of the selected EF's data, whose
bytes really are `01 02 03 04 05`. -/
theorem claim_c1_bin_read_reads_root_data :
    apduhBinRead fs95ef ⟨0xB0, 0, 0, 5, []⟩ 1 =
      (⟨0x90, 0, [65, 0, 0, 0, 0]⟩, fs95ef) ∧
    fs95ef.va.cur_ef = ef95 ∧
    ef95.data = [1, 2, 3, 4, 5] ∧
    ([65, 0, 0, 0, 0] : List Nat) ≠ [1, 2, 3, 4, 5] :=
  ⟨rfl, rfl, rfl, by decide⟩

/-- Claim C2 (refuted; code bug): the depth-first walk neither visits every
file nor reliably terminates successfully.  On the §8 tree (MF → DF → EF)
it errors: the pop compares cursors against the *root's* size with a
fall-through `if`, so after the final pop it parses at offset 95 = the tree
length.  On a tree whose MF holds two sibling DFs with one EF each, every
sibling folder *raises* the depth, the `depth < 3` loop guard exits after
the second DF, and the walk reports success having visited only 4 of the 5
files — the EF at offset 120 (which parses fine) is never visited and the
bytes covered fall short of the tree length 150. -/
theorem claim_c2_walk_misses_files :
    walkOffsets t95 = .err ∧
    walkOffsets tSib = .ok [0, 30, 60, 90] ∧
    (fileAt tSib 120).type = .efTransparent ∧
    tSib.buf.length = 150 :=
  ⟨rfl, rfl, rfl, rfl⟩

/-- Claim C3 (refuted; code bug): on a disk whose MF holds 65 EFs with FIDs
1..65, the ID LUT rebuild reports success, yet looking up FID 1 — the file
at offset 30, which carries that id — yields `NotFound`, while FID 65 (the
65th insertion, done after the growth) is still found: `lut_insert`'s
resize (disk.c:29-42) `malloc`s fresh buffers without copying the 64
existing entries, so growing the LUT discards them. -/
theorem claim_c3_lut_growth_loses_entries :
    (lutidRebuild d65).isSome = true ∧
    (fileAt ⟨t65Buf, emptyLut⟩ 30).id = 1 ∧
    lutidLookup d65r 1 = .miss .notFound ∧
    lutidLookup d65r 65 =
      .found ⟨t65Buf, emptyLut⟩ (fileAt ⟨t65Buf, emptyLut⟩ 1950) :=
  ⟨rfl, rfl, rfl, rfl⟩

/-- Claim C4 (refuted; code bug): with 4 stashed bytes `01 02 03 04`, a
first GET RESPONSE of `Ne = 2` behaves as claimed (bytes `01 02`, SW1
`0x61`, SW2 = 2, cursor advanced to 2), but the second GET RESPONSE of
`Ne = 2` returns `01 02` *again* (with SW `0x9000`): the copies at
apduh.c:1147 and apduh.c:1171 always start at `res.b[0]`, never at the
cursor, so the last pending bytes `03 04` are unreachable. -/
theorem claim_c4_get_response_ignores_cursor :
    apduhResGet ⟨[1, 2, 3, 4], 4, 0⟩ ⟨0xC0, 0, 0, 2, []⟩ 1 =
      (⟨0x61, 2, [1, 2]⟩, ⟨[1, 2, 3, 4], 4, 2⟩) ∧
    apduhResGet ⟨[1, 2, 3, 4], 4, 2⟩ ⟨0xC0, 0, 0, 2, []⟩ 1 =
      (⟨0x90, 0, [1, 2]⟩, ⟨[1, 2, 3, 4], 4, 4⟩) ∧
    ([1, 2, 3, 4] : List Nat).drop 2 = [3, 4] ∧
    ([1, 2] : List Nat) ≠ [3, 4] :=
  ⟨rfl, rfl, rfl, by decide⟩

/-- Claim C6 (refuted; code bug): with a current linear-fixed EF whose
`rcrd_size` is 3 but whose data holds only 2 bytes (record count 0),
`select_record_idx` *succeeds* and installs the record handle:
`swicc_va_select_record_idx` (common.h:239) only checks that
`swicc_disk_file_rcrd_cnt` returns successfully — which it always does for
linear-fixed and cyclic EFs — and never inspects the computed count. -/
theorem claim_c6_record_select_ignores_count :
    (fileRcrdCnt fsC6.va.cur_tree fsC6.va.cur_ef).2 = 0 ∧
    vaSelectRecordIdx fsC6 2 =
      (.success, ⟨fsC6.disk, { fsC6.va with cur_rcrd := ⟨2⟩ }⟩) :=
  ⟨rfl, rfl⟩

/-- Fact: `va_select_file` leaves the state untouched whenever it does not
return `SUCCESS` (it clears and rewrites the VA only in its success
arms). -/
theorem vaSelectFile_fail (fs : Fs) (t : TreeSt) (f : FsFile) :
    (vaSelectFile fs t f).1 ≠ .success → (vaSelectFile fs t f).2 = fs := by
  unfold vaSelectFile
  cases hr : treeFileRoot t
  · intro _; rfl
  · cases hp : fileParent t f
    · intro _; rfl
    · cases f.type <;> intro h <;> first | rfl | exact absurd rfl h

/-- The ADF-scan loop of `swicc_va_select_adf` mutates nothing unless it
returns `SUCCESS`. -/
theorem vaSelectAdfGo_fail (fs : Fs) (aid : List Nat) (pixLen : Nat) :
    ∀ ts, (vaSelectAdfGo fs aid pixLen ts).1 ≠ .success →
      (vaSelectAdfGo fs aid pixLen ts).2 = fs := by
  intro ts
  induction ts with
  | nil => intro _; rfl
  | cons t rest ih =>
    unfold vaSelectAdfGo
    split
    · intro _; rfl
    · split_ifs
      · exact vaSelectFile_fail _ _ _
      · exact ih
      · intro _; rfl

/-- Fact: `swicc_va_select_adf` is atomic on failure. -/
theorem vaSelectAdf_fail (fs : Fs) (aid : List Nat) (pixLen : Nat) :
    (vaSelectAdf fs aid pixLen).1 ≠ .success →
      (vaSelectAdf fs aid pixLen).2 = fs := by
  unfold vaSelectAdf
  split
  · intro _; rfl
  · exact vaSelectAdfGo_fail _ _ _ _

/-- Fact: `swicc_va_select_file_id` is atomic on failure. -/
theorem vaSelectFileId_fail (fs : Fs) (fid : Nat) :
    (vaSelectFileId fs fid).1 ≠ .success → (vaSelectFileId fs fid).2 = fs := by
  unfold vaSelectFileId
  split
  · exact vaSelectFile_fail _ _ _
  · intro _; rfl

/-- Fact: `swicc_va_select_file_sid` is atomic on failure. -/
theorem vaSelectFileSid_fail (fs : Fs) (sid : Nat) :
    (vaSelectFileSid fs sid).1 ≠ .success →
      (vaSelectFileSid fs sid).2 = fs := by
  unfold vaSelectFileSid
  split
  · intro _; rfl
  · split
    · exact vaSelectFile_fail _ _ _
    · intro _; rfl

/-- Fact: `swicc_va_select_record_idx` is atomic on failure. -/
theorem vaSelectRecordIdx_fail (fs : Fs) (idx : Nat) :
    (vaSelectRecordIdx fs idx).1 ≠ .success →
      (vaSelectRecordIdx fs idx).2 = fs := by
  unfold vaSelectRecordIdx
  split
  · split
    · intro h; exact absurd rfl h
    · intro _; rfl
  · intro _; rfl

/-- A failing `swicc_va_reset` leaves the VA cleared (the `memset` happens
before anything can fail). -/
theorem vaReset_fail_cleared (fs : Fs) :
    (vaReset fs).1 ≠ .success → (vaReset fs).2.va = clearedVa := by
  unfold vaReset
  dsimp only
  split
  · intro _; rfl
  · intro h
    rw [vaSelectFileId_fail _ _ h]

/-- Claim C5, counterexample: on a disk with no MF, `reset` from a VA with
a selected record index fails and leaves the VA *cleared*, not unchanged —
`swicc_va_reset` (common.h:144) `memset`s the VA before attempting the
selection of `3F00`. -/
theorem claim_c5_counterexample :
    vaReset fsRcrd5 = (.error, ⟨emptyDisk, clearedVa⟩) ∧
    fsRcrd5.va ≠ clearedVa :=
  ⟨rfl, by decide⟩

/-- Claim C5 (amended): the four selection operations (`select_adf`,
`select_file_id`, `select_file_sid`, `select_record_idx`) mutate the VA
atomically on success only — any non-`SUCCESS` return leaves the whole
state exactly as it was; `reset`, however, clears the VA unconditionally
before selecting the MF, so a failing reset leaves the VA cleared (rather
than unchanged, as the original claim states). -/
theorem claim_c5_amended :
    (∀ fs aid pixLen, (vaSelectAdf fs aid pixLen).1 ≠ .success →
      (vaSelectAdf fs aid pixLen).2 = fs) ∧
    (∀ fs fid, (vaSelectFileId fs fid).1 ≠ .success →
      (vaSelectFileId fs fid).2 = fs) ∧
    (∀ fs sid, (vaSelectFileSid fs sid).1 ≠ .success →
      (vaSelectFileSid fs sid).2 = fs) ∧
    (∀ fs idx, (vaSelectRecordIdx fs idx).1 ≠ .success →
      (vaSelectRecordIdx fs idx).2 = fs) ∧
    (∀ fs, (vaReset fs).1 ≠ .success → (vaReset fs).2.va = clearedVa) :=
  ⟨vaSelectAdf_fail, vaSelectFileId_fail, vaSelectFileSid_fail,
   vaSelectRecordIdx_fail, vaReset_fail_cleared⟩

/-- Witness for C5 (amended): concrete failing `select_file_id` (empty
disk) and failing `reset` instances. -/
theorem claim_c5_amended_witness :
    (vaSelectFileId ⟨emptyDisk, clearedVa⟩ 0x3F00).2 = ⟨emptyDisk, clearedVa⟩ ∧
    (vaReset fsRcrd5).2.va = clearedVa :=
  ⟨claim_c5_amended.2.1 ⟨emptyDisk, clearedVa⟩ 0x3F00 (by decide),
   claim_c5_amended.2.2.2.2 fsRcrd5 (by decide)⟩

/-- Fact: `va_select_file` on a resolved EF: the VA is cleared and rebound to
`(tree, root, parent, ef, ef)` with the record handle reset. -/
theorem vaSelectFile_ef (fs : Fs) (t : TreeSt) (f root parent : FsFile)
    (hroot : treeFileRoot t = some root)
    (hparent : fileParent t f = some parent)
    (hef : f.type.isEf = true) :
    vaSelectFile fs t f =
      (.success, { fs with va := ⟨some t, root, parent, f, f, ⟨0⟩⟩ }) := by
  have h3 : f.type = .efTransparent ∨ f.type = .efLinearFixed ∨
      f.type = .efCyclic := by
    simpa [ItemType.isEf] using hef
  unfold vaSelectFile
  rw [hroot, hparent]
  rcases h3 with h | h | h <;> rw [h] <;> rfl

/-- Claim C7 (confirmed): a successful selection of an EF — directly (as
`select_file_id` does after its lookup) or through the SID channel —
clears the whole VA and sets `cur_tree` to the file's tree, `cur_adf` to
the tree root, `cur_df` to the EF's parent (also for SID-based selection:
the carried ISO deviation), and `cur_ef` = `cur_file` = the file. -/
theorem claim_c7_ef_selection :
    (∀ (fs : Fs) (t : TreeSt) (f root parent : FsFile),
      treeFileRoot t = some root → fileParent t f = some parent →
      f.type.isEf = true →
      vaSelectFile fs t f =
        (.success, { fs with va := ⟨some t, root, parent, f, f, ⟨0⟩⟩ })) ∧
    (∀ (fs : Fs) (t : TreeSt) (sid : Nat) (f root parent : FsFile),
      fs.va.cur_tree = some t → lutsidLookup t sid = .found f →
      treeFileRoot t = some root → fileParent t f = some parent →
      f.type.isEf = true →
      vaSelectFileSid fs sid =
        (.success, { fs with va := ⟨some t, root, parent, f, f, ⟨0⟩⟩ })) := by
  constructor
  · intro fs t f root parent hroot hparent hef
    exact vaSelectFile_ef fs t f root parent hroot hparent hef
  · intro fs t sid f root parent htree hsid hroot hparent hef
    unfold vaSelectFileSid
    rw [htree]
    dsimp only
    rw [hsid]
    exact vaSelectFile_ef fs t f root parent hroot hparent hef

/-- Witness for C7 on the §8 scenario disk: selecting EF `6F07` directly
and by SID 7. -/
theorem claim_c7_witness :
    vaSelectFile fs95 t95 ef95 =
      (.success, { fs95 with va := ⟨some t95, mf95, df95, ef95, ef95, ⟨0⟩⟩ }) ∧
    vaSelectFileSid fs95ef 7 =
      (.success,
       { fs95ef with va := ⟨some t95, mf95, df95, ef95, ef95, ⟨0⟩⟩ }) :=
  ⟨claim_c7_ef_selection.1 fs95 t95 ef95 mf95 df95 (by decide) (by decide)
     (by decide),
   claim_c7_ef_selection.2 fs95ef t95 7 ef95 mf95 df95 (by decide) (by decide)
     (by decide) (by decide) (by decide)⟩

/-- A successful `uicc_disk_file_rcrd` implies the file is record-oriented,
the returned length is its `rcrd_size`, and the tree pointer was
non-`NULL`. -/
theorem fileRcrd_success (ot : Option TreeSt) (f : FsFile) (idx : Nat)
    (rbytes : List Nat) (rlen : Nat)
    (h : fileRcrd ot f idx = (.success, rbytes, rlen)) :
    (f.type = .efLinearFixed ∨ f.type = .efCyclic) ∧ rlen = f.rcrd_size ∧
      ot.isSome = true := by
  unfold fileRcrd at h
  cases ot
  · simp at h
  · rename_i t
    split_ifs at h with h1
    · refine ⟨h1, ?_, rfl⟩
      rcases h1 with h2 | h2 <;>
        · simp only [fileRcrdCnt, h2] at h
          split_ifs at h <;> simp_all
    · simp at h

/-- Fact: `swicc_va_select_record_idx` succeeds (installing the index) whenever a
tree is selected and the current EF is linear-fixed or cyclic. -/
theorem vaSelectRecordIdx_ready (fs : Fs) (idx : Nat) (t : TreeSt)
    (htree : fs.va.cur_tree = some t)
    (hty : fs.va.cur_ef.type = .efLinearFixed ∨
      fs.va.cur_ef.type = .efCyclic) :
    vaSelectRecordIdx fs idx =
      (.success, { fs with va := { fs.va with cur_rcrd := ⟨idx⟩ } }) := by
  unfold vaSelectRecordIdx fileRcrdCnt
  rw [htree]
  rcases hty with h | h <;> rw [if_pos (by rw [h]; simp)] <;> rw [h]

/-- Reduction of `apduh_rcrd_read` for record-number / P1-only commands
whose target EF resolved and whose record fetch succeeded: what remains is
exactly the `Ne`-check followed by the selection/response steps of
apduh.c:1019-1060. -/
theorem apduhRcrdRead_core (fs : Fs) (p1 p2 p2v p3 pc : Nat) (ef : FsFile)
    (rbytes : List Nat) (rlen : Nat)
    (hpc : pc ≠ 0) (hp1a : p1 ≠ 0) (hp1b : p1 ≠ 255)
    (h3 : p2 >>> 3 = p2v) (h4 : p2 &&& 4 ≠ 0) (h5 : p2 &&& 3 = 0)
    (h6 : p2 ≠ 248) (h7 : p2v ≠ 31)
    (htrgt : rcrdTarget fs p2v = .found ef)
    (hfetch : fileRcrd fs.va.cur_tree ef (p1 - 1) = (.success, rbytes, rlen)) :
    apduhRcrdRead fs ⟨0xB2, p1, p2, p3, []⟩ pc =
      (if p3 ≠ rlen then (⟨0x6C, rlen, []⟩, fs)
       else
         match (if p2v ≠ 0 then vaSelectFileSid fs ef.sid
                else (.success, fs)) with
         | (.success, fs1) =>
           match vaSelectRecordIdx fs1 (p1 - 1) with
           | (.success, fs2) => (⟨0x90, 0, rbytes⟩, fs2)
           | (_, fs2) => (⟨0x6F, 0, []⟩, fs2)
         | (_, fs1) => (⟨0x6F, 0, []⟩, fs1)) := by
  unfold apduhRcrdRead
  rw [if_neg (by simp)]
  rw [if_neg hpc]
  rw [if_neg (by simp)]
  dsimp only
  rw [h3]
  rw [if_neg (not_or.mpr ⟨h6, not_or.mpr ⟨not_not_intro h4, h7⟩⟩)]
  rw [if_neg (by simp [h5, hp1a, hp1b])]
  rw [htrgt]
  dsimp only
  rw [hfetch]

/-- Claim C9 (confirmed): for READ RECORD (second entry) in record-number
P1-only mode with a resolved target EF and a successful fetch of record
`p1 - 1`: the returned length always equals the EF's `rcrd_size`; if
`Ne = p3` differs from it the handler answers `SW1 = 0x6C`,
`SW2 = rcrd_size` with no data and the state untouched (the record is left
unread); if `Ne` matches, the handler answers `0x9000` with exactly the
record bytes — unconditionally for the current-EF target, and for an SFI
target whenever the SID LUT consistently resolves the EF's own SID (the
re-selection the source performs). -/
theorem claim_c9_rcrd_read_le_check (fs : Fs) (p1 p2 p2v p3 pc : Nat)
    (ef : FsFile) (rbytes : List Nat) (rlen : Nat)
    (hpc : pc ≠ 0) (hp1a : p1 ≠ 0) (hp1b : p1 ≠ 255)
    (h3 : p2 >>> 3 = p2v) (h4 : p2 &&& 4 ≠ 0) (h5 : p2 &&& 3 = 0)
    (h6 : p2 ≠ 248) (h7 : p2v ≠ 31)
    (htrgt : rcrdTarget fs p2v = .found ef)
    (hfetch : fileRcrd fs.va.cur_tree ef (p1 - 1) = (.success, rbytes, rlen)) :
    rlen = ef.rcrd_size ∧
    (p3 ≠ rlen →
      apduhRcrdRead fs ⟨0xB2, p1, p2, p3, []⟩ pc = (⟨0x6C, rlen, []⟩, fs)) ∧
    (p3 = rlen → p2v = 0 →
      apduhRcrdRead fs ⟨0xB2, p1, p2, p3, []⟩ pc =
        (⟨0x90, 0, rbytes⟩,
         ⟨fs.disk, { fs.va with cur_rcrd := ⟨p1 - 1⟩ }⟩)) ∧
    (p3 = rlen → p2v ≠ 0 →
      ∀ (t : TreeSt) (root parent : FsFile), fs.va.cur_tree = some t →
        lutsidLookup t ef.sid = .found ef →
        treeFileRoot t = some root → fileParent t ef = some parent →
        apduhRcrdRead fs ⟨0xB2, p1, p2, p3, []⟩ pc =
          (⟨0x90, 0, rbytes⟩,
           ⟨fs.disk, ⟨some t, root, parent, ef, ef, ⟨p1 - 1⟩⟩⟩)) := by
  have hcore := apduhRcrdRead_core fs p1 p2 p2v p3 pc ef rbytes rlen hpc
    hp1a hp1b h3 h4 h5 h6 h7 htrgt hfetch
  have hfacts := fileRcrd_success _ _ _ _ _ hfetch
  obtain ⟨hty, hrs, hsome⟩ := hfacts
  refine ⟨hrs, ?_, ?_, ?_⟩
  · intro hne
    rw [hcore, if_pos hne]
  · intro he h0
    obtain ⟨t, ht⟩ := Option.isSome_iff_exists.mp hsome
    have hef : fs.va.cur_ef = ef := by
      unfold rcrdTarget at htrgt
      rw [h0, if_pos rfl] at htrgt
      exact (SidLookupRes.found.injEq _ _).mp htrgt
    rw [hcore, if_neg (by simp [he]), if_neg (by simp [h0])]
    dsimp only
    rw [vaSelectRecordIdx_ready fs (p1 - 1) t ht (hef ▸ hty)]
  · intro he h0 t root parent htree hsid hroot hparent
    rw [hcore, if_neg (by simp [he]), if_pos h0]
    have hsel : vaSelectFileSid fs ef.sid =
        (.success, { fs with va := ⟨some t, root, parent, ef, ef, ⟨0⟩⟩ }) := by
      unfold vaSelectFileSid
      rw [htree]
      dsimp only
      rw [hsid]
      exact vaSelectFile_ef fs t ef root parent hroot hparent
        (by simp [ItemType.isEf]; tauto)
    rw [hsel]
    dsimp only
    rw [vaSelectRecordIdx_ready _ (p1 - 1) t rfl hty]







/-- Witness for C9 on the linear-fixed disk: a wrong-`Ne` read (`0x6C 03`),
a matching read of record 1 via the current EF, and one via SFI 1. -/
theorem claim_c9_witness :
    apduhRcrdRead fsLF ⟨0xB2, 1, 4, 5, []⟩ 1 = (⟨0x6C, 3, []⟩, fsLF) ∧
    apduhRcrdRead fsLF ⟨0xB2, 1, 4, 3, []⟩ 1 =
      (⟨0x90, 0, [1, 2, 3]⟩,
       ⟨fsLF.disk, { fsLF.va with cur_rcrd := ⟨0⟩ }⟩) ∧
    apduhRcrdRead fsLFsid ⟨0xB2, 1, 12, 3, []⟩ 1 =
      (⟨0x90, 0, [1, 2, 3]⟩,
       ⟨fsLFsid.disk, ⟨some tLF, mfLF, mfLF, lfEf, lfEf, ⟨0⟩⟩⟩) :=
  ⟨(claim_c9_rcrd_read_le_check fsLF 1 4 0 5 1 lfEf [1, 2, 3] 3 (by decide)
      (by decide) (by decide) (by decide) (by decide) (by decide) (by decide)
      (by decide) (by decide) (by decide)).2.1 (by decide),
   (claim_c9_rcrd_read_le_check fsLF 1 4 0 3 1 lfEf [1, 2, 3] 3 (by decide)
      (by decide) (by decide) (by decide) (by decide) (by decide) (by decide)
      (by decide) (by decide) (by decide)).2.2.1 rfl rfl,
   (claim_c9_rcrd_read_le_check fsLFsid 1 12 1 3 1 lfEf [1, 2, 3] 3 (by decide)
      (by decide) (by decide) (by decide) (by decide) (by decide) (by decide)
      (by decide) (by decide) (by decide)).2.2.2 rfl (by decide) tLF mfLF mfLF
      (by decide) (by decide) (by decide) (by decide)⟩

/-- The P2 bits 3:2 decode never yields the RFU marker (all four values of
`(p2 >>> 2) &&& 3` are mapped). -/
theorem dataReqOfP2_ne_rfu (p2 : Nat) (m : SelMeth) :
    dataReqOfP2 p2 m ≠ .rfuReq := by
  unfold dataReqOfP2
  have h : (p2 >>> 2) &&& 3 ≤ 3 := Nat.and_le_right
  rcases (by omega : (p2 >>> 2) &&& 3 = 0 ∨ (p2 >>> 2) &&& 3 = 1 ∨
      (p2 >>> 2) &&& 3 = 2 ∨ (p2 >>> 2) &&& 3 = 3) with h0 | h0 | h0 | h0 <;>
    rw [h0]
  · simp
  · simp
  · by_cases hm : m = SelMeth.doSel ∨ m = SelMeth.doParent
    · rw [if_pos hm]; simp
    · rw [if_neg hm]; simp
  · simp

/-- Claim C10 (amended): a SELECT with `P1 = 0x00` whose P2 passes the
leading `p2 & 0xF0` RFU check (otherwise `0x6A86` is answered first, see
the counterexample), completed with a data field whose length is neither 2
nor in `[5, 16]`, is answered with `SW1 = 0x6F`, `SW2 = 0` and no
selection is performed — the state is returned untouched. -/
theorem claim_c10_amended (fs : Fs) (p2 p3 : Nat) (data : List Nat)
    (hp2 : p2 &&& 0xF0 = 0)
    (hlen : data.length = p3)
    (hne2 : data.length ≠ 2)
    (hrange : data.length < 5 ∨ 16 < data.length) :
    apduhSelect fs ⟨0xA4, 0, p2, p3, data⟩ 1 = .done ⟨0x6F, 0, []⟩ fs := by
  unfold apduhSelect
  rw [if_neg (by simp [hp2])]
  rw [if_neg (by simp)]
  rw [if_neg (by simp)]
  rw [if_neg (by simp [hlen])]
  dsimp only
  rw [if_neg (by
    simp only [selMethOfP1, not_or]
    refine ⟨by simp, dataReqOfP2_ne_rfu p2 _, by simp, by simp⟩)]
  unfold selectPerform
  dsimp only [selMethOfP1]
  rw [if_pos hne2]
  rw [if_pos (by rcases hrange with h | h
                 · exact Or.inr h
                 · exact Or.inl h)]

/-- Claim C10, counterexample: with `P1 = 0` but `P2 = 0x10`, the handler
answers `0x6A86` (incorrect P1-P2), not the claimed `0x6F00` — the
`p2 & 0xF0` check precedes everything (apduh.c:52-58). -/
theorem claim_c10_counterexample :
    apduhSelect fs95 ⟨0xA4, 0, 0x10, 0, []⟩ 1 = .done ⟨0x6A, 0x86, []⟩ fs95 ∧
    (⟨0x6A, 0x86, []⟩ : ApduRes) ≠ ⟨0x6F, 0, []⟩ :=
  ⟨rfl, by decide⟩

/-- Witness for C10 (amended): a completed SELECT with a 3-byte body. -/
theorem claim_c10_witness :
    apduhSelect ⟨emptyDisk, clearedVa⟩ ⟨0xA4, 0, 0, 3, [0, 0, 0]⟩ 1 =
      .done ⟨0x6F, 0, []⟩ ⟨emptyDisk, clearedVa⟩ :=
  claim_c10_amended ⟨emptyDisk, clearedVa⟩ 0 3 [0, 0, 0] (by decide)
    (by decide) (by decide) (by decide)

/-- Fact: `getD` through `drop`. -/
theorem getD_drop (l : List Nat) (n k : Nat) :
    (l.drop n).getD k 0 = l.getD (n + k) 0 := by
  simp [List.getD_eq_getElem?_getD, List.getElem?_drop]

/-- Fact: `getD` through `take`, inside the taken prefix. -/
theorem getD_take (l : List Nat) (n k : Nat) (h : k < n) :
    (l.take n).getD k 0 = l.getD k 0 := by
  simp [List.getD_eq_getElem?_getD, List.getElem?_take, h]

/-- Every failing load that began on an empty disk ends with the empty disk
(`uicc_disk_root_empty` on all failure paths, disk.c:234-263). -/
theorem diskLoad_fail_empty (bytes : List Nat) :
    (diskLoad emptyDisk bytes).1 = false →
      (diskLoad emptyDisk bytes).2 = emptyDisk := by
  unfold diskLoad
  rw [if_neg (by simp [emptyDisk])]
  split_ifs
  · intro _; rfl
  · intro _; rfl
  · split
    · intro _; rfl
    · split
      · intro _; rfl
      · split
        · intro _; rfl
        · split
          · intro _; rfl
          · simp

/-- Any tree list produced by the load parse loop obeys the root-type
discipline: tree `treeIdx + i` decodes to MF exactly when it is the first,
ADF otherwise (and never to an invalid type) — disk.c:160-175. -/
theorem loadTrees_types (bytes : List Nat) :
    ∀ (fuel : List Nat) (idx treeIdx : Nat) (bufs : List (List Nat)),
      loadTrees bytes fuel idx treeIdx = some bufs →
      ∀ i, i < bufs.length →
        decodeItemType ((bufs.getD i []).getD 5 0) =
          (if treeIdx + i = 0 then ItemType.mf else ItemType.adf) := by
  intro fuel
  induction fuel with
  | nil =>
    intro idx tIdx bufs h
    simp [loadTrees] at h
  | cons b fuel ih =>
    intro idx tIdx bufs h i hi
    unfold loadTrees at h
    split_ifs at h with h1 h2
    · obtain rfl : ([] : List (List Nat)) = bufs := by simpa using h
      simp at hi
    · dsimp only at h
      split_ifs at h with h3 h4
      push_neg at h3 h4
      split at h
      · rename_i rest hrest
        obtain rfl : ((bytes.drop idx).take (readU32LE bytes idx)) :: rest =
            bufs := by simpa using h
        cases i with
        | zero =>
          have h5lt : (5 : Nat) < readU32LE bytes idx := by omega
          simp only [List.getD_cons_zero]
          rw [getD_take _ _ _ h5lt, getD_drop]
          rcases Nat.eq_zero_or_pos tIdx with h0 | h0
          · subst h0
            simp only [Nat.zero_add, if_pos rfl]
            exact h3.2.1 rfl
          · rw [if_neg (by omega)]
            exact h3.2.2 (by omega)
        | succ j =>
          have := ih (idx + readU32LE bytes idx) (tIdx + 1) rest hrest j
            (by simpa using hi)
          rw [show tIdx + (j + 1) = tIdx + 1 + j by omega]
          simpa using this
      · simp at h

/-- The SID-LUT rebuild does not touch the tree bytes. -/
theorem lutsidRebuild_buf (t t' : TreeSt) (h : lutsidRebuild t = some t') :
    t'.buf = t.buf := by
  unfold lutsidRebuild at h
  dsimp only at h
  split at h
  · obtain rfl : _ = t' := by simpa using h
    rfl
  · simp at h

/-- The load's SID-LUT rebuild loop preserves the tree buffers. -/
theorem loadRebuildSids_bufs :
    ∀ ts ts', loadRebuildSids ts = some ts' →
      ts'.map TreeSt.buf = ts.map TreeSt.buf := by
  intro ts
  induction ts with
  | nil =>
    intro ts' h
    obtain rfl : ([] : List TreeSt) = ts' := by simpa [loadRebuildSids] using h
    rfl
  | cons t rest ih =>
    intro ts' h
    unfold loadRebuildSids at h
    split at h
    · simp at h
    · rename_i t' ht'
      split at h
      · simp at h
      · rename_i rest' hrest'
        obtain rfl : t' :: rest' = ts' := by simpa using h
        simp [lutsidRebuild_buf _ _ ht', ih _ hrest']

/-- The ID-LUT rebuild does not touch the tree list. -/
theorem lutidRebuild_trees (d d' : Disk) (h : lutidRebuild d = some d') :
    d'.trees = d.trees := by
  unfold lutidRebuild at h
  dsimp only at h
  split at h
  · simp at h
  · split at h
    · obtain rfl : _ = d' := by simpa using h
      rfl
    · simp at h

/-- Fact: `lenAtLeast` agrees with the list length. -/
theorem lenAtLeast_iff (l : List Nat) : ∀ n, lenAtLeast l n = true ↔ n ≤ l.length := by
  induction l with
  | nil => intro n; cases n <;> simp [lenAtLeast]
  | cons a l ih => intro n; cases n <;> simp [lenAtLeast, ih]

/-- Fact: `getD` through `map TreeSt.buf`. -/
theorem getD_buf_map (ts : List TreeSt) (i : Nat) :
    (ts.map TreeSt.buf).getD i [] = (ts.getD i ⟨[], emptyLut⟩).buf := by
  rw [List.getD_eq_getElem?_getD, List.getD_eq_getElem?_getD,
    List.getElem?_map]
  cases ts[i]? <;> rfl

/-- A successful load yields trees whose roots obey the type discipline:
the first is an MF, all others are ADFs. -/
theorem diskLoad_ok_types (bytes : List Nat) (d : Disk)
    (h : diskLoad emptyDisk bytes = (true, d)) :
    ∀ i, i < d.trees.length →
      decodeItemType ((d.trees.getD i ⟨[], emptyLut⟩).buf.getD 5 0) =
        (if i = 0 then ItemType.mf else ItemType.adf) := by
  intro i hi
  unfold diskLoad at h
  rw [if_neg (by simp [emptyDisk])] at h
  split_ifs at h
  · simp at h
  · simp at h
  · split at h
    · simp at h
    · rename_i bufs hbufs
      split at h
      · simp at h
      · split at h
        · simp at h
        · rename_i trees htrees
          split at h
          · simp at h
          · rename_i d2 hd2
            obtain rfl : d2 = d := by simpa using h
            have htr : d2.trees = trees := lutidRebuild_trees _ _ hd2
            have hbufmap : trees.map TreeSt.buf = bufs := by
              rw [loadRebuildSids_bufs _ _ htrees, List.map_map]
              have hcomp : (TreeSt.buf ∘ fun b => (⟨b, emptyLut⟩ : TreeSt)) =
                  id := rfl
              rw [hcomp, List.map_id]
            have hblen : i < bufs.length := by
              rw [← hbufmap, List.length_map, ← htr]
              exact hi
            have hmain := loadTrees_types bytes (0 :: bytes) 8 0 bufs hbufs
              i hblen
            have key : (d2.trees.getD i ⟨[], emptyLut⟩).buf =
                bufs.getD i [] := by
              rw [← getD_buf_map, htr, hbufmap]
            rw [key]
            simpa using hmain

/-- A load whose image carries a valid magic but whose first item header
does not decode to the MF type fails. -/
theorem diskLoad_firstNotMf (bytes : List Nat)
    (hlen : 18 ≤ bytes.length) (hmagic : bytes.take 8 = diskMagic)
    (hty : decodeItemType (bytes.getD 13 0) ≠ .mf) :
    (diskLoad emptyDisk bytes).1 = false := by
  unfold diskLoad
  rw [if_neg (by simp [emptyDisk])]
  rw [if_neg (by simp [lenAtLeast_iff]; omega)]
  rw [if_neg (not_not_intro hmagic)]
  have hnone : loadTrees bytes (0 :: bytes) 8 0 = none := by
    unfold loadTrees
    rw [if_neg (by simp [lenAtLeast_iff]; omega)]
    rw [if_neg (by simp [lenAtLeast_iff]; omega)]
    dsimp only
    rw [if_pos (Or.inr (Or.inl ⟨rfl, hty⟩))]
  rw [hnone]




/-- Claim C8 (amended): for a load begun on an *empty* disk — a load
attempted on a non-empty disk fails immediately and leaves the existing
disk intact, see the counterexample — (1) every load failure leaves the
disk empty (no trees, no LUTs); (2) a successful load only ever produces
trees whose first root is an MF and whose later roots are ADFs (never an
invalid type), so a violating image cannot load; and (3) directly: an
image whose first root item is not an MF fails to load. -/
theorem claim_c8_load_failure_empty (bytes : List Nat) :
    ((diskLoad emptyDisk bytes).1 = false →
      (diskLoad emptyDisk bytes).2 = emptyDisk) ∧
    (∀ d, diskLoad emptyDisk bytes = (true, d) →
      ∀ i, i < d.trees.length →
        decodeItemType ((d.trees.getD i ⟨[], emptyLut⟩).buf.getD 5 0) =
          (if i = 0 then ItemType.mf else ItemType.adf)) ∧
    (18 ≤ bytes.length → bytes.take 8 = diskMagic →
      decodeItemType (bytes.getD 13 0) ≠ .mf →
      (diskLoad emptyDisk bytes).1 = false) :=
  ⟨diskLoad_fail_empty bytes, fun d h => diskLoad_ok_types bytes d h,
   fun h1 h2 h3 => diskLoad_firstNotMf bytes h1 h2 h3⟩

/-- Claim C8, counterexample: `uicc_disk_load` on a disk that already has
trees fails (disk.c:85-89) *without* emptying it, so not every load
failure leaves the disk empty. -/
theorem claim_c8_counterexample :
    diskLoad c8StaleDisk [] = (false, c8StaleDisk) ∧ c8StaleDisk ≠ emptyDisk :=
  ⟨rfl, by decide⟩

/-- Witness for C8 (amended): a DF-rooted image fails and leaves the empty
disk; a well-formed flat MF image loads successfully with an MF-typed
first root. -/
theorem claim_c8_witness :
    (diskLoad emptyDisk c8NotMfBytes).1 = false ∧
    (diskLoad emptyDisk c8NotMfBytes).2 = emptyDisk ∧
    decodeItemType
      (((diskLoad emptyDisk c8LoadableBytes).2.trees.getD 0
          ⟨[], emptyLut⟩).buf.getD 5 0) = .mf :=
  ⟨(claim_c8_load_failure_empty c8NotMfBytes).2.2 (by decide) (by decide)
     (by decide),
   (claim_c8_load_failure_empty c8NotMfBytes).1
     ((claim_c8_load_failure_empty c8NotMfBytes).2.2 (by decide) (by decide)
       (by decide)),
   (claim_c8_load_failure_empty c8LoadableBytes).2.1
     (diskLoad emptyDisk c8LoadableBytes).2 rfl 0 (by decide)⟩

end Swicc
